import Mathlib

/-!
Verification development for the MiTradingBot repository.

The embedding below translates the protocol-multiplexing client in
`deriv_websocket.py` (the pending receive queue, the request/await loops of
`DerivAPI.buy_contract`, the background reader `_read_loop`, the event
generator `_event_generator`, and `DerivAPI.close`) and the trading session
in `live_trader.py` (`LiveTrader.calculate_stake` and the `tick_callback`
state machine of `LiveTrader.run`) into pure Lean functions.  Decoded JSON
messages are modelled as `Frame` records carrying the marker-key presence
bits and the payload fields the code reads; monetary and price values are
rationals; timestamps are integers (epoch seconds).
-/

namespace MiTradingBot

/-- A decoded JSON message, as classified by the code's membership tests
(`"proposal" in data`, `"tick" in data`, `"buy" in data`, `"error" in data`,
`"raw"` for undecodable payloads), together with the payload fields that
`buy_contract` and `tick_callback` actually read. -/
structure Frame where
  hasProposal : Bool := false
  hasTick : Bool := false
  hasBuy : Bool := false
  hasError : Bool := false
  hasRaw : Bool := false
  pid : ℕ := 0
  contract_id : ℕ := 0
  buy_price : ℚ := 0
  payout : ℚ := 0
  start_time : ℤ := 0
  longcode : String := ""
  price : ℚ := 0
  epoch : ℤ := 0
  raw : String := ""
deriving Repr, DecidableEq

/-- Outcome of one request/await loop of `buy_contract`. -/
inductive AwaitResult where
  | found (f : Frame)
  | exhausted
  | blocked
deriving Repr, DecidableEq

/-- Result of the await loop: outcome, remaining queue contents, and the
number of frames popped from the queue. `blocked` models the loop
suspending on `queue.get()` when the given arrival sequence is exhausted. -/
structure AwaitOut where
  result : AwaitResult
  queue : List Frame
  pops : ℕ
deriving Repr, DecidableEq

/-- The request/await primitive used by both phases of
`DerivAPI.buy_contract` (`for _ in range(10): data = await queue.get(); if
pred(data): break; elif "tick" in data: await queue.put(data)`): pop up to
`fuel` frames; return the first one matching `pred`; re-enqueue popped tick
frames at the tail; any other popped frame is neither returned nor
re-enqueued. -/
def sendAndAwait (pred : Frame → Bool) : ℕ → List Frame → AwaitOut
  | 0, q => ⟨AwaitResult.exhausted, q, 0⟩
  | Nat.succ _, [] => ⟨AwaitResult.blocked, [], 0⟩
  | Nat.succ n, f :: q =>
    if pred f then ⟨AwaitResult.found f, q, 1⟩
    else if f.hasTick then
      let o := sendAndAwait pred n (q ++ [f])
      ⟨o.result, o.queue, o.pops + 1⟩
    else
      let o := sendAndAwait pred n q
      ⟨o.result, o.queue, o.pops + 1⟩

/-- An outbound request sent by `buy_contract`: the Phase-1 proposal request
and the Phase-2 confirm (`{"buy": proposal_id, "price": amount}`) request. -/
inductive Request where
  | proposal (amount : ℚ)
  | confirm (pid : ℕ) (price : ℚ)
deriving Repr, DecidableEq

/-- The dict returned by a successful `buy_contract`. -/
structure Contract where
  contract_id : ℕ
  buy_price : ℚ
  payout : ℚ
  start_time : ℤ
  longcode : String
deriving Repr, DecidableEq

/-- Result of `buy_contract`: the returned contract (`none` on any failure),
the remaining queue contents, and the requests sent on the websocket. -/
structure BuyOut where
  result : Option Contract
  queue : List Frame
  sends : List Request
deriving Repr, DecidableEq

/-- `DerivAPI.buy_contract`: Phase 1 sends the proposal request and awaits a
frame with the `proposal` key (budget 10); an `error` key on the reply, or
budget exhaustion, fails the attempt.  Phase 2 sends the confirm request
referencing the proposal id and awaits a frame with the `buy` key (budget
10), again failing on `error` or exhaustion; otherwise the contract fields
are extracted and returned. -/
def buy_contract (amount : ℚ) (q : List Frame) : BuyOut :=
  let r1 := sendAndAwait (fun f => f.hasProposal) 10 q
  match r1.result with
  | AwaitResult.found p =>
    if p.hasError then ⟨none, r1.queue, [Request.proposal amount]⟩
    else
      let r2 := sendAndAwait (fun f => f.hasBuy) 10 r1.queue
      match r2.result with
      | AwaitResult.found b =>
        if b.hasError then
          ⟨none, r2.queue, [Request.proposal amount, Request.confirm p.pid amount]⟩
        else
          ⟨some ⟨b.contract_id, b.buy_price, b.payout, b.start_time, b.longcode⟩,
           r2.queue, [Request.proposal amount, Request.confirm p.pid amount]⟩
      | _ => ⟨none, r2.queue, [Request.proposal amount, Request.confirm p.pid amount]⟩
  | _ => ⟨none, r1.queue, [Request.proposal amount]⟩

/-- Contract direction, the code's `"CALL"` / `"PUT"` strings. -/
inductive Dir where
  | call
  | put
deriving Repr, DecidableEq

/-- The sign a direction gives to a price change (+1 for CALL/Up, -1 for
PUT/Down). -/
def dirSign : Dir → ℚ
  | Dir.call => 1
  | Dir.put => -1

/-- The mutable trading state of a `LiveTrader`: account fields, the open
position (at most one, an `Option`), its entry snapshot, and the cooldown
timestamp.  `risk_percent` is the constructor argument, never mutated. -/
structure TraderState where
  balance : ℚ
  risk_percent : ℚ
  position : Option Dir
  entry_price : ℚ
  entry_time : Option ℤ
  contract_id : Option ℕ
  current_stake : ℚ
  total_trades : ℕ
  winning_trades : ℕ
  losing_trades : ℕ
  consecutive_losses : ℕ
  last_action_time : ℤ
deriving Repr, DecidableEq

/-- Rounding a rational amount to 2 decimal places (cents), abstracting
Python's `round(x, 2)` on floats as rational rounding to the nearest
hundredth. -/
def round2 (q : ℚ) : ℚ := (round (q * 100) : ℤ) / 100

/-- `LiveTrader.calculate_stake`, with the instance fields (`balance`,
`risk_percent`, `consecutive_losses`) passed explicitly: base stake
`balance * risk_percent / 100`, scaled by the volatility, signal-strength
and losing-streak factors, bounded by `max(min_stake, min(stake,
max_stake))` with `min_stake = 10` and `max_stake = balance * 0.05`, and
rounded to 2 decimals. -/
def calculate_stake (balance risk_percent : ℚ) (consecutive_losses : ℕ)
    (volatility : ℚ) (signal_strength : ℤ) : ℚ :=
  let base_stake := balance * (risk_percent / 100)
  let volatility_factor : ℚ :=
    if volatility > 1/2 then 7/10 else if volatility > 3/10 then 17/20 else 1
  let signal_factor : ℚ := if signal_strength ≥ 3 then 13/10 else 1
  let loss_factor : ℚ :=
    if consecutive_losses ≥ 3 then 1/2
    else if consecutive_losses ≥ 2 then 7/10 else 1
  let stake := base_stake * volatility_factor * signal_factor * loss_factor
  let min_stake : ℚ := 10
  let max_stake := balance * (5/100)
  round2 (max min_stake (min stake max_stake))

/-- The assignments performed by `tick_callback` when `buy_contract`
succeeds (lines 250-256 of `live_trader.py`): record the open position with
its entry snapshot and refresh the cooldown timestamp. -/
def openPosition (s : TraderState) (d : Dir) (price : ℚ) (epoch : ℤ)
    (stake : ℚ) (cid : ℕ) (now : ℤ) : TraderState :=
  { s with
    position := some d
    entry_price := price
    entry_time := some epoch
    contract_id := some cid
    current_stake := stake
    last_action_time := now }

/-- The settlement block of `tick_callback` (lines 268-330 of
`live_trader.py`): directional P&L from the spot price delta, payout
`0.95 * stake` on a win and `-stake` on a loss, account counters updated,
and the position fields reset to their initial values. -/
def settle (s : TraderState) (d : Dir) (current_price : ℚ) : TraderState :=
  let price_change := current_price - s.entry_price
  let pnl := match d with
    | Dir.call => price_change
    | Dir.put => -price_change
  let profit_percent := pnl / s.entry_price * 100
  let profit_amount : ℚ :=
    if profit_percent > 0 then s.current_stake * (95/100) else -s.current_stake
  { s with
    balance := s.balance + profit_amount
    total_trades := s.total_trades + 1
    winning_trades :=
      if profit_amount > 0 then s.winning_trades + 1 else s.winning_trades
    losing_trades :=
      if profit_amount > 0 then s.losing_trades else s.losing_trades + 1
    consecutive_losses :=
      if profit_amount > 0 then 0 else s.consecutive_losses + 1
    position := none
    entry_price := 0
    entry_time := none
    contract_id := none }

/-- The entry signal of `tick_callback`: CALL when RSI < 30, PUT when
RSI > 70, none otherwise. -/
def signalOf (rsi : ℚ) : Option Dir :=
  if rsi < 30 then some Dir.call else if rsi > 70 then some Dir.put else none

/-- Observable actions of one `tick_callback` invocation. -/
inductive Event where
  | buyAttempt
  | opened (d : Dir)
  | settled
deriving Repr, DecidableEq

/-- The per-event inputs of one `tick_callback` invocation: the frame pulled
from the feed, the indicator outputs for the current price (the
`SignalProvider` is opaque here), the wall-clock time `now` (seconds) and
the elapsed session minutes. -/
structure TickInput where
  frame : Frame
  rsi : ℚ
  volatility : ℚ
  now : ℤ
  elapsed_minutes : ℚ
deriving Repr, DecidableEq

/-- Result of one `tick_callback` invocation: the new trader state, the
remaining queue contents, the emitted events, and the returned stop flag. -/
structure StepOut where
  state : TraderState
  queue : List Frame
  events : List Event
  stop : Bool
deriving Repr, DecidableEq

/-- The `tick_callback` closure of `LiveTrader.run`: non-tick frames are
ignored (`return False`); with no open position and the 25-second cooldown
elapsed, an RSI signal triggers `calculate_stake` (the code passes
signal strength 3) and `buy_contract`, opening a position only on success;
with an open position held for more than 20 seconds, the trade settles; the
stop flag is the session-duration check performed at the end. -/
def tick_callback (dur : ℚ) (s : TraderState) (q : List Frame)
    (inp : TickInput) : StepOut :=
  if inp.frame.hasTick = false then ⟨s, q, [], false⟩
  else
    let current_price := inp.frame.price
    let stop := decide (inp.elapsed_minutes ≥ dur)
    match s.position with
    | none =>
      if inp.now - s.last_action_time > 25 then
        match signalOf inp.rsi with
        | some ct =>
          let stake := calculate_stake s.balance s.risk_percent
            s.consecutive_losses inp.volatility 3
          let b := buy_contract stake q
          match b.result with
          | some con =>
            ⟨openPosition s ct current_price inp.frame.epoch stake
               con.contract_id inp.now,
             b.queue, [Event.buyAttempt, Event.opened ct], stop⟩
          | none => ⟨s, b.queue, [Event.buyAttempt], stop⟩
        | none => ⟨s, q, [], stop⟩
      else ⟨s, q, [], stop⟩
    | some d =>
      if inp.frame.epoch - s.entry_time.getD 0 > 20 then
        ⟨settle s d current_price, q, [Event.settled], stop⟩
      else ⟨s, q, [], stop⟩

/-- A raw message received on the websocket: either it decodes to a Frame,
or JSON parsing fails and only the raw text is available. -/
inductive RawMsg where
  | ok (f : Frame)
  | bad (raw : String)
deriving Repr, DecidableEq

/-- How the `_read_loop` of `DerivAPI` ends: cooperative cancellation (from
`close()`) or a transport receive failure with message `e`. -/
inductive ReaderEnd where
  | cancelled
  | transportError (e : String)
deriving Repr, DecidableEq

/-- One iteration of `_read_loop`'s decode step: `json.loads` succeeding
yields the decoded frame; on a decode failure the code substitutes
`{"raw": raw}`. -/
def decodeStep : RawMsg → Frame
  | RawMsg.ok f => f
  | RawMsg.bad r => { hasRaw := true, raw := r }

/-- The sentinel `{"error": str(e)}` the reader pushes on a transport
failure. -/
def errSentinel (e : String) : Frame := { hasError := true, raw := e }

/-- `DerivAPI._read_loop`, summarised as the list of frames it pushes to the
pending queue (the queue is initialized by `authorize` before the reader
starts): every received raw message is decoded (or wrapped) and pushed; on
a transport failure one error sentinel is pushed and the loop ends; on
cancellation it ends silently. -/
def read_loop (msgs : List RawMsg) (fin : ReaderEnd) : List Frame :=
  msgs.map decodeStep ++
    (match fin with
     | ReaderEnd.cancelled => []
     | ReaderEnd.transportError e => [errSentinel e])

/-- Whether the event generator has returned (`finished`) or is suspended
inside `await queue.get()` (`suspended`). -/
inductive FeedStatus where
  | suspended
  | finished
deriving Repr, DecidableEq

/-- `DerivAPI._event_generator` (`while True: yield await queue.get()`) run
against a finite arrival sequence: it yields every queued frame in order —
its body never inspects a frame, so it never returns — and then suspends
awaiting the next frame. -/
def event_generator_run : List Frame → List Frame × FeedStatus
  | [] => ([], FeedStatus.suspended)
  | f :: q =>
    let o := event_generator_run q
    (f :: o.1, o.2)

/-- How the `async for` consumer loop of `LiveTrader.run` exits its `try`
block: the callback returned `True` (duration reached), the loop body
finished, or an exception was caught. -/
inductive LoopExit where
  | stopped
  | loopEnded
  | raised (e : String)
deriving Repr, DecidableEq

/-- The `finally` block of `LiveTrader.run` prints the final summary once,
on every exit path of the `try` block. -/
def finalizeSummaries : LoopExit → ℕ := fun _ => 1

/-- The fields of `DerivAPI` that `close()` resets (the queue is modelled by
its contents). -/
structure ApiState where
  websocket : Option ℕ
  authorized : Bool
  recv_queue : Option (List Frame)
  events : Option ℕ
  reader_task : Option ℕ
deriving Repr, DecidableEq

/-- Side effects of a `close()` call, in order: cancelling (and awaiting)
the reader task, then closing the transport. -/
inductive CloseEffect where
  | cancelReader
  | transportClose
deriving Repr, DecidableEq

/-- The pre-connect defaults, which `close()` restores. -/
def closedState : ApiState := ⟨none, false, none, none, none⟩

/-- `DerivAPI.close`: when a websocket is present, cancel the reader task
(if any) before closing the transport; in every case reset all fields to
the pre-connect defaults. -/
def close (s : ApiState) : ApiState × List CloseEffect :=
  if s.websocket.isSome then
    (closedState,
     (if s.reader_task.isSome then [CloseEffect.cancelReader] else []) ++
       [CloseEffect.transportClose])
  else (closedState, [])

/-- Clamping `x` into `[lo, hi]`, lower bound applied last. -/
def clampQ (lo hi x : ℚ) : ℚ := max lo (min x hi)

/-- The spec's volatility tiers, written from the low tier up: factor 1.0 up
to 0.3, 0.85 up to 0.5, 0.7 above. -/
def volatilityFactorSpec (v : ℚ) : ℚ :=
  if v ≤ 3/10 then 1 else if v ≤ 1/2 then 17/20 else 7/10

/-- The spec's consecutive-loss tiers, written from the short streak up:
factor 1.0 below 2 losses, 0.7 at exactly 2, 0.5 at 3 or more. -/
def lossFactorSpec (cl : ℕ) : ℚ :=
  if cl ≤ 1 then 1 else if cl = 2 then 7/10 else 1/2

/-- The stake-sizing policy as the spec states it: the base stake (balance
times the risk percent) times the three factors, clamped to
`[minStake, balance * maxStakeFraction]` and rounded to currency
precision. -/
def stakeSpec (balance riskPercent : ℚ) (cl : ℕ) (v : ℚ) (strength : ℤ) : ℚ :=
  round2 (clampQ 10 (balance * (5/100))
    (balance * (riskPercent / 100) * volatilityFactorSpec v *
      (if 3 ≤ strength then 13/10 else 1) * lossFactorSpec cl))

/-- An opened trade together with the exit price at settlement, for stating
balance evolution over full open/settle cycles. -/
structure Trade where
  dir : Dir
  entry : ℚ
  stake : ℚ
  exitPrice : ℚ
deriving Repr, DecidableEq

/-- One full position cycle: the open assignments followed by the
settlement block, as `tick_callback` performs them. -/
def roundTrip (s : TraderState) (t : Trade) : TraderState :=
  settle (openPosition s t.dir t.entry 0 t.stake 0 0) t.dir t.exitPrice

/-- The signed per-trade P&L amount: the 0.95 payout fraction of the stake
on a win (positive directional price move), the full stake forfeited on a
loss. -/
def tradePnl (t : Trade) : ℚ :=
  if 0 < dirSign t.dir * (t.exitPrice - t.entry) then t.stake * (95/100)
  else -t.stake

/-- A live tick frame. -/
def tickFrameA : Frame := { hasTick := true, price := 1, epoch := 1 }

/-- Another live tick frame. -/
def tickFrameB : Frame := { hasTick := true, price := 2, epoch := 2 }

/-- A Phase-2 style reply (a frame with the `buy` key). -/
def buyReplyFrame : Frame := { hasBuy := true, contract_id := 7 }

/-- A successful Phase-1 reply (a frame with the `proposal` key). -/
def proposalFrame : Frame := { hasProposal := true, pid := 1 }

/-- A Phase-1 reply carrying both the `proposal` and the `error` key. -/
def errorProposalFrame : Frame := { hasProposal := true, hasError := true }

/-- A frame carrying only the `error` key. -/
def errorOnlyFrame : Frame := { hasError := true, raw := "bad" }

/-- Ten frames none of which carries the `proposal` or `tick` key. -/
def tenBuyFrames : List Frame := List.replicate 10 { hasBuy := true }

/-- A trader state with no open position (the post-construction state with
balance 10000 and risk percent 1). -/
def flatState : TraderState :=
  ⟨10000, 1, none, 0, none, none, 0, 0, 0, 0, 0, 0⟩

/-- A tick input whose RSI 25 triggers a CALL signal, with the 25-second
cooldown elapsed relative to `flatState`. -/
def sigInput : TickInput :=
  ⟨{ hasTick := true, price := 100, epoch := 1000 }, 25, 0, 1000, 0⟩

/-- A queue whose Phase-1 and Phase-2 replies both succeed. -/
def goodBuyQueue : List Frame := [proposalFrame, buyReplyFrame]

/-- A queue whose Phase-1 reply is an error frame. -/
def errorQuoteQueue : List Frame := [errorProposalFrame]

/-- A winning CALL trade: entry 100, stake 10, exit 101. -/
def exTrade : Trade := ⟨Dir.call, 100, 10, 101⟩

/-- The sentinel pushed by the reader on a transport failure. -/
def transportFailFrame : Frame := errSentinel "connection lost"

/-- A tick frame arriving after the transport-failure sentinel. -/
def afterFailTick : Frame := { hasTick := true, price := 5, epoch := 100 }

lemma round2_ten_le {q : ℚ} (h : 10 ≤ q) : 10 ≤ round2 q := by
  unfold round2
  have h1 : (1000 : ℤ) ≤ round (q * 100) := by
    have h2 : round (((1000 : ℤ) : ℚ)) ≤ round (q * 100) := by
      rw [round_eq, round_eq]
      exact Int.floor_mono (by push_cast; linarith)
    rwa [round_intCast] at h2
  rw [le_div_iff₀ (by norm_num : (0:ℚ) < 100)]
  have h3 : ((1000 : ℤ) : ℚ) ≤ ((round (q * 100) : ℤ) : ℚ) := by
    exact_mod_cast h1
  push_cast at h3
  linarith

lemma round2_ten : round2 10 = 10 := by
  have h : ((10 : ℚ) * 100) = ((1000 : ℤ) : ℚ) := by norm_num
  rw [round2, h, round_intCast]
  norm_num

lemma clamp_floor (x : ℚ) {cap : ℚ} (h : cap < 10) :
    max 10 (min x cap) = 10 :=
  max_eq_left (le_trans (min_le_right x cap) (le_of_lt h))

lemma div_hundred_pos_iff {p e : ℚ} (he : 0 < e) :
    0 < p / e * 100 ↔ 0 < p := by
  constructor
  · intro h
    have hpe : 0 < p / e := by linarith
    have hmul := mul_pos hpe he
    rwa [div_mul_cancel₀ p (ne_of_gt he)] at hmul
  · intro h
    have hpe : 0 < p / e := div_pos h he
    linarith

lemma sendAndAwait_pops_le (pred : Frame → Bool) :
    ∀ (fuel : ℕ) (q : List Frame), (sendAndAwait pred fuel q).pops ≤ fuel := by
  intro fuel
  induction fuel with
  | zero => intro q; simp [sendAndAwait]
  | succ n ih =>
    intro q
    cases q with
    | nil => simp [sendAndAwait]
    | cons f t =>
      simp only [sendAndAwait]
      split
      · simp
      · split
        · simpa using Nat.succ_le_succ (ih (t ++ [f]))
        · simpa using Nat.succ_le_succ (ih t)

lemma settle_char (s : TraderState) (d : Dir) (c : ℚ)
    (he : 0 < s.entry_price) (hs : 0 < s.current_stake) :
    (settle s d c).balance = s.balance +
      (if 0 < dirSign d * (c - s.entry_price) then s.current_stake * (95/100)
       else -s.current_stake) ∧
    ((settle s d c).winning_trades = s.winning_trades + 1 ↔
      0 < dirSign d * (c - s.entry_price)) := by
  have hpos95 : (0:ℚ) < s.current_stake * (95/100) := by
    apply mul_pos hs; norm_num
  have hneg : ¬ ((0:ℚ) < -s.current_stake) := by
    simp only [not_lt]
    linarith
  cases d with
  | call =>
    simp only [settle, dirSign, one_mul]
    by_cases hw : 0 < c - s.entry_price
    · have h1 : (c - s.entry_price) / s.entry_price * 100 > 0 :=
        (div_hundred_pos_iff he).mpr hw
      rw [if_pos h1, if_pos hpos95, if_pos hw]
      exact ⟨rfl, iff_of_true rfl hw⟩
    · have h1 : ¬ ((c - s.entry_price) / s.entry_price * 100 > 0) :=
        fun h => hw ((div_hundred_pos_iff he).mp h)
      rw [if_neg h1, if_neg hneg, if_neg hw]
      exact ⟨rfl, iff_of_false (by omega) hw⟩
  | put =>
    simp only [settle, dirSign, neg_one_mul]
    by_cases hw : 0 < -(c - s.entry_price)
    · have h1 : -(c - s.entry_price) / s.entry_price * 100 > 0 :=
        (div_hundred_pos_iff he).mpr hw
      rw [if_pos h1, if_pos hpos95, if_pos hw]
      exact ⟨rfl, iff_of_true rfl hw⟩
    · have h1 : ¬ (-(c - s.entry_price) / s.entry_price * 100 > 0) :=
        fun h => hw ((div_hundred_pos_iff he).mp h)
      rw [if_neg h1, if_neg hneg, if_neg hw]
      exact ⟨rfl, iff_of_false (by omega) hw⟩

lemma roundTrip_char (s : TraderState) (t : Trade)
    (he : 0 < t.entry) (hs : 0 < t.stake) :
    (roundTrip s t).balance = s.balance + tradePnl t ∧
    ((roundTrip s t).winning_trades = s.winning_trades + 1 ↔
      0 < dirSign t.dir * (t.exitPrice - t.entry)) := by
  have h := settle_char (openPosition s t.dir t.entry 0 t.stake 0 0) t.dir
    t.exitPrice (by simpa [openPosition] using he)
    (by simpa [openPosition] using hs)
  unfold roundTrip tradePnl
  simpa [openPosition] using h

lemma foldl_balance (trades : List Trade) :
    ∀ s0 : TraderState, (∀ t ∈ trades, 0 < t.entry ∧ 0 < t.stake) →
      (List.foldl roundTrip s0 trades).balance =
        s0.balance + (trades.map tradePnl).sum := by
  induction trades with
  | nil => intro s0 _; simp
  | cons t ts ih =>
    intro s0 h
    have ht := h t (List.mem_cons_self t ts)
    have hts : ∀ u ∈ ts, 0 < u.entry ∧ 0 < u.stake :=
      fun u hu => h u (List.mem_cons_of_mem t hu)
    simp only [List.foldl_cons, List.map_cons, List.sum_cons]
    rw [ih (roundTrip s0 t) hts, (roundTrip_char s0 t ht.1 ht.2).1]
    ring

lemma tick_callback_state_of_buy_none (dur : ℚ) (s : TraderState)
    (q : List Frame) (inp : TickInput) (hpos : s.position = none)
    (hb : (buy_contract (calculate_stake s.balance s.risk_percent
      s.consecutive_losses inp.volatility 3) q).result = none) :
    (tick_callback dur s q inp).state = s := by
  unfold tick_callback
  cases hft : inp.frame.hasTick with
  | false => simp [hft]
  | true =>
    rw [hpos, if_neg (by simp [hft])]
    split
    · split
      · cases hsig : signalOf inp.rsi with
        | none => simp [hsig]
        | some ct => simp [hsig, hb]
      · rfl
    · rename_i heq
      exact Option.noConfusion heq

/-- C3: for every prior connection state, calling `close()` twice is
equivalent to calling it once: the second call performs no effect (so it
raises no error) and both calls end in the same terminal state, with the
websocket, receive queue, events generator and reader task reset to `none`
and `authorized` reset to `false`. -/
theorem close_idempotent_C3 (s : ApiState) :
    (close (close s).1).1 = (close s).1 ∧
    (close (close s).1).2 = [] ∧
    (close s).1 = closedState ∧
    (close s).1.websocket = none ∧
    (close s).1.authorized = false ∧
    (close s).1.recv_queue = none ∧
    (close s).1.events = none ∧
    (close s).1.reader_task = none := by
  have h1 : (close s).1 = closedState := by
    unfold close
    split <;> rfl
  refine ⟨?_, ?_, h1, ?_, ?_, ?_, ?_, ?_⟩ <;> rw [h1] <;> rfl

/-- C4 counterexample: the reader wraps a JSON decode failure into the
frame `{"raw": raw}`, which carries no `error` marker key, hence is not an
Error-tagged frame as the claim states. -/
theorem reader_decode_wrap_cex :
    read_loop [RawMsg.bad "not json"] ReaderEnd.cancelled =
      [{ hasRaw := true, raw := "not json" }] ∧
    ({ hasRaw := true, raw := "not json" } : Frame).hasError = false := by
  exact ⟨rfl, rfl⟩

/-- C4 (amended): for every raw message received by the background reader,
a decode failure is wrapped into a raw-payload Frame (carrying the `raw`
key, not the `error` key) and pushed to the pending queue rather than
discarded or crashing the reader; and on a transport receive failure,
exactly one Error-sentinel Frame is pushed to the queue and the reader loop
terminates. -/
theorem reader_no_drop_C4 (msgs : List RawMsg) (e r : String) :
    read_loop msgs (ReaderEnd.transportError e) =
      msgs.map decodeStep ++ [errSentinel e] ∧
    read_loop msgs ReaderEnd.cancelled = msgs.map decodeStep ∧
    decodeStep (RawMsg.bad r) = { hasRaw := true, raw := r } ∧
    (decodeStep (RawMsg.bad r)).hasError = false ∧
    (errSentinel e).hasError = true ∧
    (read_loop msgs (ReaderEnd.transportError e)).length = msgs.length + 1 := by
  refine ⟨rfl, by simp [read_loop], rfl, rfl, rfl, by simp [read_loop]⟩

/-- C5: `calculate_stake` computes exactly the spec's policy: the base
stake (balance times the risk percent) scaled by the volatility tier
(>0.5 gives 0.7, >0.3 gives 0.85, else 1), the signal-strength factor
(strong, i.e. strength at least 3, gives 1.3, else 1) and the
consecutive-loss factor (3 or more gives 0.5, exactly 2 gives 0.7, else 1),
clamped to `[10, balance * 0.05]` and rounded to 2 decimal places. -/
theorem calculate_stake_policy_C5 (b rp : ℚ) (cl : ℕ) (v : ℚ) (sg : ℤ) :
    calculate_stake b rp cl v sg = stakeSpec b rp cl v sg := by
  have hv : (if v > 1/2 then (7:ℚ)/10 else if v > 3/10 then 17/20 else 1) =
      volatilityFactorSpec v := by
    unfold volatilityFactorSpec
    split_ifs <;> first | rfl | linarith
  have hcl : (if cl ≥ 3 then (1:ℚ)/2 else if cl ≥ 2 then 7/10 else 1) =
      lossFactorSpec cl := by
    unfold lossFactorSpec
    split_ifs <;> first | rfl | omega
  simp only [calculate_stake, stakeSpec, clampQ, hv, hcl]

/-- C10: `calculate_stake` always returns at least the minimum stake 10;
the lower bound is applied after the upper bound, so when
`balance * 0.05 < 10` the returned stake is exactly 10 and strictly exceeds
the `balance * 0.05` risk cap. -/
theorem stake_min_floor_C10 (b rp : ℚ) (cl : ℕ) (v : ℚ) (sg : ℤ) :
    10 ≤ calculate_stake b rp cl v sg ∧
    (b * (5/100) < 10 →
      calculate_stake b rp cl v sg = 10 ∧
      b * (5/100) < calculate_stake b rp cl v sg) := by
  constructor
  · simp only [calculate_stake]
    exact round2_ten_le (le_max_left _ _)
  · intro h
    simp only [calculate_stake]
    rw [clamp_floor _ h, round2_ten]
    exact ⟨rfl, h⟩

/-- C10 witness: with balance 100 the cap is 5, below the floor, and the
returned stake is 10, exceeding the cap. -/
theorem stake_min_floor_C10_witness :
    calculate_stake 100 1 0 0 3 = 10 ∧
    (100 : ℚ) * (5/100) < calculate_stake 100 1 0 0 3 := by
  have h := (stake_min_floor_C10 100 1 0 0 3).2 (by norm_num)
  exact ⟨h.1, h.2⟩

/-- C9 counterexample: after the reader pushes its transport-failure
sentinel, the feed does not terminate — the event generator yields the
sentinel as an ordinary item, keeps yielding the frames behind it, and ends
suspended on the empty queue rather than finished; and the session's
callback returns `False` (do not stop) on the sentinel. -/
theorem feed_nontermination_cex :
    event_generator_run [transportFailFrame, afterFailTick] =
      ([transportFailFrame, afterFailTick], FeedStatus.suspended) ∧
    FeedStatus.suspended ≠ FeedStatus.finished ∧
    (tick_callback 30 flatState [] ⟨transportFailFrame, 50, 0, 1000, 0⟩).stop
      = false := by
  refine ⟨rfl, fun h => FeedStatus.noConfusion h, rfl⟩

/-- C9 (amended): on a transport failure the reader pushes exactly one
Error-sentinel frame and terminates, but the feed does not terminate: the
event generator yields every queued frame — the sentinel included — and
then suspends awaiting the next frame; the session's callback ignores the
sentinel (state unchanged, stop flag `false`); the single final summary is
emitted by the finalizer on each path on which the consumer loop actually
exits (stop flag, loop end, or exception). -/
theorem feed_and_summary_C9 :
    (∀ (msgs : List RawMsg) (e : String),
      read_loop msgs (ReaderEnd.transportError e) =
        msgs.map decodeStep ++ [errSentinel e]) ∧
    (∀ q : List Frame, event_generator_run q = (q, FeedStatus.suspended)) ∧
    (∀ (dur : ℚ) (s : TraderState) (qq : List Frame) (e : String)
        (rsi vol : ℚ) (now : ℤ) (em : ℚ),
      tick_callback dur s qq ⟨errSentinel e, rsi, vol, now, em⟩ =
        ⟨s, qq, [], false⟩) ∧
    (∀ ex : LoopExit, finalizeSummaries ex = 1) := by
  refine ⟨fun msgs e => rfl, ?_, fun dur s qq e rsi vol now em => rfl,
    fun ex => rfl⟩
  intro q
  induction q with
  | nil => rfl
  | cons f t ih => simp [event_generator_run, ih]

/-- C1 counterexample: a popped frame that matches neither the predicate
nor the tick test is dropped, not retained: awaiting a `proposal` frame on
the queue `[errorOnlyFrame, proposalFrame]` returns the proposal frame and
leaves an empty queue, so the popped error-only frame is not retained. -/
theorem sendAndAwait_drop_cex :
    (sendAndAwait (fun f => f.hasProposal) 10
        [errorOnlyFrame, proposalFrame]).result =
      AwaitResult.found proposalFrame ∧
    (sendAndAwait (fun f => f.hasProposal) 10
        [errorOnlyFrame, proposalFrame]).queue = [] ∧
    errorOnlyFrame ∉ (sendAndAwait (fun f => f.hasProposal) 10
        [errorOnlyFrame, proposalFrame]).queue := by
  refine ⟨rfl, rfl, ?_⟩
  have hq : (sendAndAwait (fun f => f.hasProposal) 10
      [errorOnlyFrame, proposalFrame]).queue = ([] : List Frame) := rfl
  rw [hq]
  exact List.not_mem_nil errorOnlyFrame

/-- C1 (amended): whenever a frame matching the predicate sits within the
attempt budget, the request/await primitive used by `buy_contract` returns
the first popped frame matching its predicate; the tick frames popped
during the wait are requeued at the tail with their relative order
preserved, while popped frames that are neither matching nor ticks are
dropped from the queue. -/
theorem sendAndAwait_first_match_C1 (pred : Frame → Bool) (q₁ : List Frame)
    (m : Frame) (q₂ : List Frame) (fuel : ℕ)
    (h₁ : ∀ f ∈ q₁, pred f = false) (hm : pred m = true)
    (hlen : q₁.length < fuel) :
    sendAndAwait pred fuel (q₁ ++ m :: q₂) =
      ⟨AwaitResult.found m, q₂ ++ q₁.filter (fun f => f.hasTick),
        q₁.length + 1⟩ := by
  induction q₁ generalizing fuel q₂ with
  | nil =>
    cases fuel with
    | zero => omega
    | succ n => simp [sendAndAwait, hm]
  | cons f t ih =>
    cases fuel with
    | zero => omega
    | succ n =>
      have hf : pred f = false := h₁ f (List.mem_cons_self f t)
      have ht : ∀ g ∈ t, pred g = false :=
        fun g hg => h₁ g (List.mem_cons_of_mem f hg)
      have hlen' : t.length < n := by
        simp only [List.length_cons] at hlen
        omega
      have hsplit : (t ++ m :: q₂) ++ [f] = t ++ m :: (q₂ ++ [f]) := by simp
      cases htick : f.hasTick with
      | true =>
        simp only [List.cons_append, sendAndAwait, hf, htick, if_true,
          Bool.false_eq_true, if_false, List.append_eq]
        rw [hsplit, ih (q₂ ++ [f]) n ht hlen']
        simp [List.filter_cons, htick]
      | false =>
        simp only [List.cons_append, sendAndAwait, hf, htick,
          Bool.false_eq_true, if_false, List.append_eq]
        rw [ih q₂ n ht hlen']
        simp [List.filter_cons, htick]

/-- C1 witness: awaiting a proposal on [tick, error-only, proposal, tick]
pops three frames, returns the proposal frame, requeues the first tick at
the tail and drops the error-only frame. -/
theorem sendAndAwait_first_match_C1_witness :
    sendAndAwait (fun f => f.hasProposal) 10
        [tickFrameA, errorOnlyFrame, proposalFrame, tickFrameB] =
      ⟨AwaitResult.found proposalFrame, [tickFrameB, tickFrameA], 3⟩ := by
  have h := sendAndAwait_first_match_C1 (fun f => f.hasProposal)
    [tickFrameA, errorOnlyFrame] proposalFrame [tickFrameB] 10
    (by intro f hf
        simp only [List.mem_cons, List.not_mem_nil, or_false] at hf
        rcases hf with rfl | rfl <;> rfl)
    rfl (by simp)
  exact h

/-- C2: every await phase pops at most its attempt budget of frames (10 in
`buy_contract`); when a phase exhausts its budget without a match,
`buy_contract` returns `none` (the failed order attempt); and a failed
`buy_contract` leaves the trading-session state unchanged. -/
theorem response_timeout_C2 :
    (∀ (pred : Frame → Bool) (fuel : ℕ) (q : List Frame),
      (sendAndAwait pred fuel q).pops ≤ fuel) ∧
    (∀ (amount : ℚ) (q : List Frame),
      (sendAndAwait (fun f => f.hasProposal) 10 q).result =
        AwaitResult.exhausted →
      (buy_contract amount q).result = none) ∧
    (∀ (amount : ℚ) (q : List Frame) (p : Frame),
      (sendAndAwait (fun f => f.hasProposal) 10 q).result =
        AwaitResult.found p →
      p.hasError = false →
      (sendAndAwait (fun f => f.hasBuy) 10
          (sendAndAwait (fun f => f.hasProposal) 10 q).queue).result =
        AwaitResult.exhausted →
      (buy_contract amount q).result = none) ∧
    (∀ (dur : ℚ) (s : TraderState) (q : List Frame) (inp : TickInput),
      s.position = none →
      (buy_contract (calculate_stake s.balance s.risk_percent
        s.consecutive_losses inp.volatility 3) q).result = none →
      (tick_callback dur s q inp).state = s) := by
  refine ⟨sendAndAwait_pops_le, ?_, ?_, tick_callback_state_of_buy_none⟩
  · intro amount q h
    simp [buy_contract, h]
  · intro amount q p h1 h2 h3
    simp [buy_contract, h1, h2, h3]

/-- C2 witness: a queue of ten frames carrying only the `buy` key exhausts
the Phase-1 budget, `buy_contract` fails, and the callback leaves the flat
session state unchanged. -/
theorem response_timeout_C2_witness :
    (buy_contract 10 tenBuyFrames).result = none ∧
    (tick_callback 30 flatState tenBuyFrames sigInput).state = flatState := by
  have hex : (sendAndAwait (fun f => f.hasProposal) 10 tenBuyFrames).result =
      AwaitResult.exhausted := rfl
  exact ⟨response_timeout_C2.2.1 10 tenBuyFrames hex,
    response_timeout_C2.2.2.2 30 flatState tenBuyFrames sigInput rfl
      (response_timeout_C2.2.1 _ tenBuyFrames hex)⟩

/-- C6: at settlement a trade is a win exactly when
`sign(direction) * (currentPrice - entryPrice) > 0`; a win adds
`0.95 * stake` to the balance and a loss subtracts the full stake; hence
after any list of settled trades the balance equals the initial balance
plus the sum of the signed per-trade P&L amounts, exactly (the rational
model carries no rounding error). -/
theorem settlement_balance_C6 (s0 : TraderState) (trades : List Trade)
    (h : ∀ t ∈ trades, 0 < t.entry ∧ 0 < t.stake) :
    (List.foldl roundTrip s0 trades).balance =
      s0.balance + (trades.map tradePnl).sum ∧
    (∀ t ∈ trades,
      tradePnl t = if 0 < dirSign t.dir * (t.exitPrice - t.entry)
        then t.stake * (95/100) else -t.stake) ∧
    (∀ t ∈ trades, ∀ s : TraderState,
      (roundTrip s t).balance = s.balance + tradePnl t ∧
      ((roundTrip s t).winning_trades = s.winning_trades + 1 ↔
        0 < dirSign t.dir * (t.exitPrice - t.entry))) := by
  refine ⟨foldl_balance trades s0 h, fun t _ => rfl, ?_⟩
  intro t ht s
  exact roundTrip_char s t (h t ht).1 (h t ht).2

/-- C6 witness: a single winning CALL trade (entry 100, exit 101, stake 10)
raises the balance by 9.5. -/
theorem settlement_balance_C6_witness :
    (List.foldl roundTrip flatState [exTrade]).balance =
      flatState.balance + ([exTrade].map tradePnl).sum := by
  exact (settlement_balance_C6 flatState [exTrade]
    (by intro t ht
        simp only [List.mem_cons, List.not_mem_nil, or_false] at ht
        subst ht
        exact ⟨by norm_num [exTrade], by norm_num [exTrade]⟩)).1

/-- C7: when the Phase-1 (quote) reply carries the `error` key,
`buy_contract` fails without ever sending the Phase-2 confirm request, and
for any flat session state the callback leaves the whole trader state
unchanged (position stays `none`, balance and all counters untouched). -/
theorem quote_rejected_C7 (amount : ℚ) (q : List Frame) (p : Frame)
    (hf : (sendAndAwait (fun f => f.hasProposal) 10 q).result =
      AwaitResult.found p)
    (he : p.hasError = true) :
    (buy_contract amount q).result = none ∧
    (buy_contract amount q).sends = [Request.proposal amount] ∧
    ∀ (dur : ℚ) (s : TraderState) (inp : TickInput),
      s.position = none → (tick_callback dur s q inp).state = s := by
  have hb : ∀ a : ℚ, buy_contract a q =
      ⟨none, (sendAndAwait (fun f => f.hasProposal) 10 q).queue,
        [Request.proposal a]⟩ := by
    intro a
    simp [buy_contract, hf, he]
  refine ⟨by rw [hb amount], by rw [hb amount], ?_⟩
  intro dur s inp hpos
  exact tick_callback_state_of_buy_none dur s q inp hpos
    (by rw [hb _])

/-- C7 witness: on the concrete queue whose quote reply carries both the
`proposal` and `error` keys, `buy_contract` fails having sent only the
proposal request, and the flat session state is unchanged. -/
theorem quote_rejected_C7_witness :
    (buy_contract 10 errorQuoteQueue).result = none ∧
    (buy_contract 10 errorQuoteQueue).sends = [Request.proposal 10] ∧
    (tick_callback 30 flatState errorQuoteQueue sigInput).state
      = flatState := by
  have h := quote_rejected_C7 10 errorQuoteQueue errorProposalFrame rfl rfl
  exact ⟨h.1, h.2.1, h.2.2 30 flatState sigInput rfl⟩

/-- C8: one feed-event step never yields more than one open position: a
buy is attempted only when the position is `none`; a position is opened
only on a successful `buy_contract`, and then the new state holds exactly
that position; a position opened from flat always comes with an `opened`
event; settlement requires an open position and clears it; and no single
step both opens and settles. -/
theorem single_position_C8 (dur : ℚ) (s : TraderState) (q : List Frame)
    (inp : TickInput) :
    (Event.buyAttempt ∈ (tick_callback dur s q inp).events →
      s.position = none) ∧
    (∀ d : Dir, Event.opened d ∈ (tick_callback dur s q inp).events →
      s.position = none ∧
      (tick_callback dur s q inp).state.position = some d ∧
      Event.buyAttempt ∈ (tick_callback dur s q inp).events ∧
      (buy_contract (calculate_stake s.balance s.risk_percent
        s.consecutive_losses inp.volatility 3) q).result ≠ none) ∧
    (s.position = none →
      (tick_callback dur s q inp).state.position ≠ none →
      ∃ d, Event.opened d ∈ (tick_callback dur s q inp).events) ∧
    (Event.settled ∈ (tick_callback dur s q inp).events →
      s.position ≠ none ∧
      (tick_callback dur s q inp).state.position = none) ∧
    (∀ d : Dir, ¬(Event.opened d ∈ (tick_callback dur s q inp).events ∧
      Event.settled ∈ (tick_callback dur s q inp).events)) := by
  unfold tick_callback
  cases hft : inp.frame.hasTick with
  | false => simp
  | true =>
    rw [if_neg (by simp [hft])]
    cases hpos : s.position with
    | none =>
      split
      · split
        · cases hsig : signalOf inp.rsi with
          | none => simp [hpos]
          | some ct =>
            cases hbr : (buy_contract (calculate_stake s.balance
                s.risk_percent s.consecutive_losses inp.volatility 3)
                q).result with
            | none => simp [hpos, hbr]
            | some con => simp [hpos, hbr, openPosition]
        · simp [hpos]
      · rename_i heq
        exact Option.noConfusion heq
    | some d =>
      split
      · rename_i heq
        exact Option.noConfusion heq
      · split
        · simp [hpos, settle]
        · simp [hpos]

/-- C8 witness: on a queue with matching proposal and buy replies and a
CALL signal, the step opens exactly one position from the flat state. -/
theorem single_position_C8_witness :
    flatState.position = none ∧
    (tick_callback 30 flatState goodBuyQueue sigInput).state.position =
      some Dir.call := by
  have h := single_position_C8 30 flatState goodBuyQueue sigInput
  have hm : Event.opened Dir.call ∈
      (tick_callback 30 flatState goodBuyQueue sigInput).events := by
    have he : (tick_callback 30 flatState goodBuyQueue sigInput).events =
        [Event.buyAttempt, Event.opened Dir.call] := rfl
    rw [he]
    simp
  exact ⟨(h.2.1 Dir.call hm).1, (h.2.1 Dir.call hm).2.1⟩

end MiTradingBot
